import Mathlib

/-!
# Browser view controllers: demo array view and bucket-list view

Shallow embedding of `src/_asset/root.js` (the `#array` application) and of
`src/bucket_list/_asset/bucket_list.js` (the `#bucket-list` application).

Each method and each promise callback of the source is a pure function from
the component state (`this`) to the new state together with the list of
effects it requests (alerts, `fetch` calls, body decoding).  Every effect
that registers a continuation carries the tag of that continuation, so the
link between a request and its handler is part of the model.
-/

/-! ## Effects shared by both scripts -/

/-- Request body: the text `JSON.stringify(o)` of an object literal `o` whose
members, in source order, are the listed string-valued properties.  The
serialisation itself is kept symbolic. -/
inductive Body where
  | jsonStringify (members : List (String × String))
deriving DecidableEq, Repr

/-- Arguments of one `fetch(url, init)` call.  A call without `init` has
method `GET`, no headers and no body. -/
structure Request where
  url : String
  method : String
  headers : List (String × String)
  body : Option Body
deriving DecidableEq, Repr

/-- Call `fetch(url)` with no `init` argument. -/
def Request.get (url : String) : Request :=
  ⟨url, "GET", [], none⟩

/-- Outcome of `fetch(...).then(res => res.json())`: the chained data callback
runs only in the `decoded` case; in the two others the promise rejects and
nothing is attached to the rejection. -/
inductive FetchJson (α : Type) where
  | networkError
  | invalidJson
  | decoded (data : α)

/-! ## `root.js`: the `#array` application -/

namespace Root

/-- Decoded JSON value, as produced by `res.json()`.  The representation of
numbers is left as a parameter. -/
inductive Json (Num : Type) where
  | null
  | bool (b : Bool)
  | number (n : Num)
  | string (s : String)
  | array (elems : List (Json Num))
  | object (members : List (String × Json Num))

/-- Continuations registered by the `#array` application. -/
inductive Callback where
  | getItems_then
deriving DecidableEq, Repr

/-- Effects requested by the `#array` application. -/
inductive Effect where
  | fetch (req : Request) (k : Callback)
deriving DecidableEq, Repr

/-- Component state of the `#array` application. -/
structure ArrayView (Num : Type) where
  items : Json Num

/-- Source `data()`: `items: []`. -/
def data (Num : Type) : ArrayView Num :=
  ⟨Json.array []⟩

/-- Source `getItems()`: `fetch('/array')`, state untouched. -/
def getItems {Num : Type} (v : ArrayView Num) : ArrayView Num × List Effect :=
  (v, [Effect.fetch (Request.get "/array") Callback.getItems_then])

/-- Source `mounted()`: `this.getItems()`. -/
def mounted {Num : Type} (v : ArrayView Num) : ArrayView Num × List Effect :=
  getItems v

/-- Promise chain `.then(res => res.json()).then(data => this.items = data)`:
the assignment happens only when the body was decoded. -/
def getItems_then {Num : Type} (r : FetchJson (Json Num)) (v : ArrayView Num) :
    ArrayView Num × List Effect :=
  match r with
  | FetchJson.decoded d => (⟨d⟩, [])
  | FetchJson.networkError => (v, [])
  | FetchJson.invalidJson => (v, [])

end Root

/-! ## `bucket_list.js`: the `#bucket-list` application -/

namespace BucketList

/-- One element of the array decoded from `GET /bucket_list/all`. -/
structure BucketListEntry where
  name : String
  description : String
  timestamp : String
deriving DecidableEq, Repr

/-- One element of the array decoded from a 422 body. -/
structure FieldError where
  field_name : String
  messages : List String
deriving DecidableEq, Repr

/-- The object `sorted`, created by the literal `{}`.

* `own` lists its own properties in the order in which they were created.
* `proto` is `none` while the object still has the prototype the literal gave
  it (`Object.prototype`), and `some m` once the array `m` has been installed
  as its prototype. -/
structure ErrorObject where
  own : List (String × List String)
  proto : Option (List String)
deriving DecidableEq, Repr

/-- Value of the `error` field: the boolean `false`, or an object built from a
422 body. -/
inductive ErrorState where
  | cleared
  | fields (o : ErrorObject)
deriving DecidableEq, Repr

/-- Component state of the `#bucket-list` application. -/
structure View where
  bucket_list : List BucketListEntry
  input_name : String
  input_description : String
  error : ErrorState
deriving DecidableEq, Repr

/-- Continuations registered by the `#bucket-list` application. -/
inductive Callback where
  | getBucketList_then
  | addToBucketList_then
  | content_then
deriving DecidableEq, Repr

/-- Effects requested by the `#bucket-list` application. -/
inductive Effect where
  | alert (message : String)
  | fetch (req : Request) (k : Callback)
  | json (k : Callback)
deriving DecidableEq, Repr

/-- Recogniser of network requests. -/
def Effect.isFetch : Effect → Bool
  | Effect.fetch _ _ => true
  | _ => false

/-- Recogniser of alerts. -/
def Effect.isAlert : Effect → Bool
  | Effect.alert _ => true
  | _ => false

/-- Source `data()`. -/
def data : View :=
  ⟨[], "", "", ErrorState.cleared⟩

/-- Source `getBucketList()`: `fetch('/bucket_list/all')`, state untouched. -/
def getBucketList (v : View) : View × List Effect :=
  (v, [Effect.fetch (Request.get "/bucket_list/all") Callback.getBucketList_then])

/-- Source `formatDate()`: every element of `bucket_list` gets its `timestamp`
overwritten by `new Date(item.timestamp).toLocaleString()`; that string
transformation is the parameter `toLocaleString`. -/
def formatDate (toLocaleString : String → String) (v : View) : View :=
  { v with bucket_list :=
      v.bucket_list.map (fun item => { item with timestamp := toLocaleString item.timestamp }) }

/-- Data callback of `getBucketList`: `this.bucket_list = data; this.formatDate()`. -/
def getBucketList_then (toLocaleString : String → String)
    (r : FetchJson (List BucketListEntry)) (v : View) : View × List Effect :=
  match r with
  | FetchJson.decoded d => (formatDate toLocaleString { v with bucket_list := d }, [])
  | FetchJson.networkError => (v, [])
  | FetchJson.invalidJson => (v, [])

/-- Source `mounted()`: `this.getBucketList()`. -/
def mounted (v : View) : View × List Effect :=
  getBucketList v

/-- Source `addToBucketList()`, the part that runs synchronously. -/
def addToBucketList (v : View) : View × List Effect :=
  if v.input_name = "" ∨ v.input_description = "" then
    (v, [Effect.alert "Please fill in the required fields"])
  else
    (v, [Effect.fetch
          ⟨"/bucket_list/add", "POST", [("Content-Type", "application/json")],
            some (Body.jsonStringify
              [("name", v.input_name), ("description", v.input_description)])⟩
          Callback.addToBucketList_then])

/-- Creation or update of an own data property: an existing property keeps its
position and gets the new value, a new one is added last. -/
def setOwn : List (String × List String) → String → List String →
    List (String × List String)
  | [], k, m => [(k, m)]
  | (k0, m0) :: rest, k, m =>
    if k0 = k then (k0, m) :: rest else (k0, m0) :: setOwn rest k m

/-- Assignment `sorted[k] = m` where `m` is an array.  The key `__proto__`
reaches the accessor inherited from `Object.prototype`, whose setter installs
the array as the prototype of `sorted` and creates no own property; every
other key creates or updates an own data property. -/
def ErrorObject.set (o : ErrorObject) (k : String) (m : List String) : ErrorObject :=
  if k = "__proto__" then { o with proto := some m }
  else { o with own := setOwn o.own k m }

/-- Own property names of the object (what `Object.keys` enumerates, up to
order). -/
def ErrorObject.keys (o : ErrorObject) : List String :=
  o.own.map Prod.fst

/-- Read `o[k]`, as far as it yields an array stored by `ErrorObject.set`:
the own data property named `k`, or, for `k = "__proto__"` without such an own
property, the array installed as prototype (the inherited getter returns the
prototype).  `none` means that no stored array is reached: the read yields
`undefined` or a value of the built-in prototypes. -/
def ErrorObject.get (o : ErrorObject) (k : String) : Option (List String) :=
  match o.own.lookup k with
  | some m => some m
  | none => if k = "__proto__" then o.proto else none

/-- The loop `for (let key in data) sorted[data[key].field_name] = data[key].messages`
over a decoded array, whose indices are visited in ascending order, starting
from `sorted = {}`. -/
def sorted (data : List FieldError) : ErrorObject :=
  data.foldl (fun o r => o.set r.field_name r.messages) ⟨[], none⟩

/-- Response callback of the `POST`, given `res.status`. -/
def addToBucketList_then (status : Nat) (v : View) : View × List Effect :=
  if status = 200 then
    ({ (getBucketList v).1 with
        input_name := "", input_description := "", error := ErrorState.cleared },
      (getBucketList v).2)
  else if status = 422 then
    (v, [Effect.json Callback.content_then])
  else
    (v, [])

/-- Callback `content.then(data => ...)` of the 422 branch; `none` stands for a
body that `res.json()` could not decode, in which case the callback never
runs. -/
def content_then (r : Option (List FieldError)) (v : View) : View × List Effect :=
  match r with
  | some d => ({ v with error := ErrorState.fields (sorted d) }, [])
  | none => (v, [])

end BucketList

/-! ## Auxiliary facts about the object built from a 422 body -/

namespace BucketList

/-- Last element of `data` whose `field_name` is `k`. -/
def lastFor (k : String) (data : List FieldError) : Option FieldError :=
  (data.filter (fun r => decide (r.field_name = k))).getLast?

/-- The loop of `sorted`, started from an arbitrary object. -/
def sortedFrom (o : ErrorObject) (data : List FieldError) : ErrorObject :=
  data.foldl (fun o r => o.set r.field_name r.messages) o

theorem sorted_eq_sortedFrom (data : List FieldError) :
    sorted data = sortedFrom ⟨[], none⟩ data := rfl

theorem sortedFrom_cons (o : ErrorObject) (r : FieldError) (rest : List FieldError) :
    sortedFrom o (r :: rest) = sortedFrom (o.set r.field_name r.messages) rest := rfl

theorem mem_keys_setOwn (own : List (String × List String)) (k : String) (m : List String)
    (j : String) : j ∈ (setOwn own k m).map Prod.fst ↔ j ∈ own.map Prod.fst ∨ j = k := by
  induction own with
  | nil => simp [setOwn]
  | cons p rest ih =>
    obtain ⟨k0, m0⟩ := p
    by_cases h : k0 = k
    · subst h
      simp only [setOwn, if_true, List.map_cons, List.mem_cons]
      tauto
    · simp only [setOwn, if_neg h, List.map_cons, List.mem_cons, ih]
      tauto

theorem nodup_keys_setOwn (own : List (String × List String)) (k : String) (m : List String)
    (h : (own.map Prod.fst).Nodup) : ((setOwn own k m).map Prod.fst).Nodup := by
  induction own with
  | nil => simp [setOwn]
  | cons p rest ih =>
    obtain ⟨k0, m0⟩ := p
    simp only [List.map_cons, List.nodup_cons] at h
    by_cases hk : k0 = k
    · subst hk
      simpa [setOwn] using h
    · simp only [setOwn, if_neg hk, List.map_cons, List.nodup_cons, mem_keys_setOwn]
      refine ⟨?_, ih h.2⟩
      rintro (h1 | h1)
      · exact h.1 h1
      · exact hk h1

theorem lookup_setOwn (own : List (String × List String)) (k : String) (m : List String)
    (j : String) :
    (setOwn own k m).lookup j = if j = k then some m else own.lookup j := by
  induction own with
  | nil =>
    by_cases h : j = k
    · simp [setOwn, List.lookup, h]
    · have h2 : (j == k) = false := by simpa using h
      simp [setOwn, List.lookup, h, h2]
  | cons p rest ih =>
    obtain ⟨k0, m0⟩ := p
    by_cases hk : k0 = k
    · subst hk
      by_cases hj : j = k0
      · subst hj
        simp [setOwn, List.lookup]
      · have h2 : (j == k0) = false := by simpa using hj
        simp [setOwn, List.lookup, hj, h2]
    · by_cases hj : j = k0
      · subst hj
        simp [setOwn, List.lookup, hk]
      · have h2 : (j == k0) = false := by simpa using hj
        simp [setOwn, List.lookup, hk, h2, ih]

theorem mem_keys_set (o : ErrorObject) (k : String) (m : List String) (j : String) :
    j ∈ (o.set k m).keys ↔ j ∈ o.keys ∨ (j = k ∧ k ≠ "__proto__") := by
  by_cases h : k = "__proto__"
  · simp [ErrorObject.set, ErrorObject.keys, h]
  · simp only [ErrorObject.set, ErrorObject.keys, if_neg h, mem_keys_setOwn]
    simp [h]

theorem nodup_keys_set (o : ErrorObject) (k : String) (m : List String)
    (h : o.keys.Nodup) : (o.set k m).keys.Nodup := by
  by_cases hk : k = "__proto__"
  · simpa [ErrorObject.set, ErrorObject.keys, hk] using h
  · simpa [ErrorObject.set, ErrorObject.keys, hk] using nodup_keys_setOwn o.own k m h

theorem lookup_eq_none_of_not_mem (own : List (String × List String)) (j : String)
    (h : j ∉ own.map Prod.fst) : own.lookup j = none := by
  induction own with
  | nil => rfl
  | cons p rest ih =>
    obtain ⟨k0, m0⟩ := p
    simp only [List.map_cons, List.mem_cons, not_or] at h
    have h2 : (j == k0) = false := by simpa using h.1
    simp [List.lookup, h2, ih h.2]

theorem get_set (o : ErrorObject) (hinv : "__proto__" ∉ o.keys) (k : String)
    (m : List String) (j : String) :
    (o.set k m).get j = if j = k then some m else o.get j := by
  by_cases hk : k = "__proto__"
  · subst hk
    have hl : o.own.lookup "__proto__" = none := lookup_eq_none_of_not_mem _ _ hinv
    by_cases hj : j = "__proto__"
    · subst hj
      simp [ErrorObject.set, ErrorObject.get, hl]
    · simp [ErrorObject.set, ErrorObject.get, hj]
  · by_cases hj : j = k
    · subst hj
      simp [ErrorObject.set, ErrorObject.get, hk, lookup_setOwn]
    · simp [ErrorObject.set, ErrorObject.get, hk, hj, lookup_setOwn]

theorem proto_not_mem_keys_set (o : ErrorObject) (hinv : "__proto__" ∉ o.keys) (k : String)
    (m : List String) : "__proto__" ∉ (o.set k m).keys := by
  rw [mem_keys_set]
  rintro (h | ⟨h1, h2⟩)
  · exact hinv h
  · exact h2 h1.symm

end BucketList

namespace BucketList

theorem lastFor_cons (j : String) (r : FieldError) (rest : List FieldError) :
    lastFor j (r :: rest) =
      match lastFor j rest with
      | some x => some x
      | none => if r.field_name = j then some r else none := by
  unfold lastFor
  by_cases h : r.field_name = j
  · rw [List.filter_cons_of_pos (by simpa using h)]
    cases hl : (rest.filter (fun r => decide (r.field_name = j))).getLast? with
    | none =>
      have : rest.filter (fun r => decide (r.field_name = j)) = [] := by
        simpa using hl
      simp [this, h]
    | some x =>
      simp [List.getLast?_cons, hl]
  · rw [List.filter_cons_of_neg (by simpa using h)]
    cases hl : (rest.filter (fun r => decide (r.field_name = j))).getLast? with
    | none => simp [h]
    | some x => simp

theorem lastFor_field_name (j : String) (data : List FieldError) (r : FieldError)
    (h : lastFor j data = some r) : r ∈ data ∧ r.field_name = j := by
  unfold lastFor at h
  have hm := List.mem_of_getLast?_eq_some h
  simpa using hm

theorem lastFor_eq_none (j : String) (data : List FieldError)
    (h : lastFor j data = none) : ∀ r ∈ data, r.field_name ≠ j := by
  unfold lastFor at h
  intro r hr hj
  have hm : r ∈ data.filter (fun r => decide (r.field_name = j)) := by
    simp [hr, hj]
  rw [List.getLast?_eq_none_iff] at h
  rw [h] at hm
  exact absurd hm (List.not_mem_nil r)

theorem mem_keys_sortedFrom (data : List FieldError) (o : ErrorObject) (j : String) :
    j ∈ (sortedFrom o data).keys ↔
      j ∈ o.keys ∨ (j ≠ "__proto__" ∧ ∃ r ∈ data, r.field_name = j) := by
  induction data generalizing o with
  | nil => simp [sortedFrom]
  | cons r rest ih =>
    rw [sortedFrom_cons, ih, mem_keys_set]
    constructor
    · rintro ((h | ⟨h1, h2⟩) | ⟨h1, x, hx, hxj⟩)
      · exact Or.inl h
      · exact Or.inr ⟨by rw [h1]; exact h2, r, List.mem_cons_self _ _, h1.symm⟩
      · exact Or.inr ⟨h1, x, List.mem_cons_of_mem _ hx, hxj⟩
    · rintro (h | ⟨h1, x, hx, hxj⟩)
      · exact Or.inl (Or.inl h)
      · rcases List.mem_cons.mp hx with hx | hx
        · subst hx
          exact Or.inl (Or.inr ⟨hxj.symm, by rw [hxj]; exact h1⟩)
        · exact Or.inr ⟨h1, x, hx, hxj⟩

theorem nodup_keys_sortedFrom (data : List FieldError) (o : ErrorObject)
    (h : o.keys.Nodup) : (sortedFrom o data).keys.Nodup := by
  induction data generalizing o with
  | nil => simpa [sortedFrom] using h
  | cons r rest ih =>
    rw [sortedFrom_cons]
    exact ih _ (nodup_keys_set o _ _ h)

theorem get_sortedFrom (data : List FieldError) (o : ErrorObject)
    (hinv : "__proto__" ∉ o.keys) (j : String) :
    (sortedFrom o data).get j =
      match lastFor j data with
      | some r => some r.messages
      | none => o.get j := by
  induction data generalizing o with
  | nil => simp [sortedFrom, lastFor]
  | cons r rest ih =>
    rw [sortedFrom_cons, ih _ (proto_not_mem_keys_set o hinv _ _), lastFor_cons]
    cases hl : lastFor j rest with
    | some x => simp
    | none =>
      by_cases h : r.field_name = j
      · simp [get_set o hinv, h]
      · have h2 : ¬ j = r.field_name := fun e => h e.symm
        simp [get_set o hinv, h, h2]

theorem get_sorted (data : List FieldError) (j : String) :
    (sorted data).get j = (lastFor j data).map (fun r => r.messages) := by
  rw [sorted_eq_sortedFrom, get_sortedFrom data ⟨[], none⟩ (by simp [ErrorObject.keys])]
  cases lastFor j data with
  | some x => rfl
  | none =>
    by_cases h : j = "__proto__"
    · simp [ErrorObject.get, List.lookup, h]
    · simp [ErrorObject.get, List.lookup, h]

end BucketList

namespace BucketList

theorem proto_sortedFrom (data : List FieldError) (o : ErrorObject)
    (h : ∀ r ∈ data, r.field_name ≠ "__proto__") : (sortedFrom o data).proto = o.proto := by
  induction data generalizing o with
  | nil => rfl
  | cons r rest ih =>
    rw [sortedFrom_cons, ih _ (fun x hx => h x (List.mem_cons_of_mem _ hx))]
    simp [ErrorObject.set, h r (List.mem_cons_self _ _)]

theorem mem_keys_sorted (data : List FieldError) (j : String) :
    j ∈ (sorted data).keys ↔ j ≠ "__proto__" ∧ ∃ r ∈ data, r.field_name = j := by
  rw [sorted_eq_sortedFrom, mem_keys_sortedFrom]
  simp [ErrorObject.keys]

/-! ## The claims -/

/-- C1: when `input_name` or `input_description` is the empty string,
`addToBucketList` requests no `fetch`, raises the alert exactly once and
returns the state unchanged (so `bucket_list`, `input_name`,
`input_description` and `error` keep their values). -/
theorem addToBucketList_empty_field (v : View)
    (h : v.input_name = "" ∨ v.input_description = "") :
    (addToBucketList v).2 = [Effect.alert "Please fill in the required fields"] ∧
    (addToBucketList v).2.filter Effect.isFetch = [] ∧
    ((addToBucketList v).2.filter Effect.isAlert).length = 1 ∧
    (addToBucketList v).1.bucket_list = v.bucket_list ∧
    (addToBucketList v).1.input_name = v.input_name ∧
    (addToBucketList v).1.input_description = v.input_description ∧
    (addToBucketList v).1.error = v.error := by
  simp [addToBucketList, h, Effect.isFetch, Effect.isAlert]

theorem addToBucketList_empty_field_witness :
    ((View.mk [] "" "milk" ErrorState.cleared).input_name = "" ∨
      (View.mk [] "" "milk" ErrorState.cleared).input_description = "") ∧
    (addToBucketList (View.mk [] "" "milk" ErrorState.cleared)).2 =
      [Effect.alert "Please fill in the required fields"] :=
  ⟨Or.inl rfl, (addToBucketList_empty_field (View.mk [] "" "milk" ErrorState.cleared)
    (Or.inl rfl)).1⟩

/-- C2: a submission with both fields non-empty registers the response
callback on its `POST`; when that callback sees status 200 it sets
`input_name` and `input_description` to the empty string and `error` to
`false`, leaves `bucket_list` alone and requests exactly one effect, a `GET`
to `/bucket_list/all`.  The state `v` at response time is arbitrary. -/
theorem addToBucketList_then_200 (v0 : View) (h1 : v0.input_name ≠ "")
    (h2 : v0.input_description ≠ "") (v : View) :
    (∃ req, (addToBucketList v0).2 = [Effect.fetch req Callback.addToBucketList_then] ∧
      req.method = "POST" ∧ req.url = "/bucket_list/add") ∧
    (addToBucketList_then 200 v).1 = View.mk v.bucket_list "" "" ErrorState.cleared ∧
    (addToBucketList_then 200 v).2 =
      [Effect.fetch (Request.mk "/bucket_list/all" "GET" [] none)
        Callback.getBucketList_then] ∧
    ((addToBucketList_then 200 v).2.filter Effect.isFetch).length = 1 := by
  simp [addToBucketList, addToBucketList_then, getBucketList, Request.get, h1, h2,
    Effect.isFetch]

theorem addToBucketList_then_200_witness :
    (View.mk [] "Paris" "see the tower" ErrorState.cleared).input_name ≠ "" ∧
    (View.mk [] "Paris" "see the tower" ErrorState.cleared).input_description ≠ "" ∧
    (addToBucketList_then 200
        (View.mk [] "Paris" "see the tower" (ErrorState.fields ⟨[("name", ["x"])], none⟩))).1 =
      View.mk [] "" "" ErrorState.cleared :=
  ⟨by decide, by decide,
    (addToBucketList_then_200 (View.mk [] "Paris" "see the tower" ErrorState.cleared)
      (by decide) (by decide)
      (View.mk [] "Paris" "see the tower" (ErrorState.fields ⟨[("name", ["x"])], none⟩))).2.1⟩

end BucketList

namespace BucketList

/-- C3, as stated, fails: for the body `[{field_name: "__proto__", messages:
["required"]}]` the stored object has no own key at all (the array became its
prototype), so its key set is not the set of `field_name` values of the
body. -/
theorem content_then_proto_key_lost :
    (content_then (some [FieldError.mk "__proto__" ["required"]]) data).1.error =
      ErrorState.fields ⟨[], some ["required"]⟩ ∧
    ¬ (∀ k, k ∈ (sorted [FieldError.mk "__proto__" ["required"]]).keys ↔
        ∃ r ∈ [FieldError.mk "__proto__" ["required"]], r.field_name = k) := by
  refine ⟨by decide, ?_⟩
  intro h
  have h1 := (h "__proto__").2 ⟨_, List.mem_singleton.mpr rfl, rfl⟩
  rw [mem_keys_sorted] at h1
  exact h1.1 rfl

/-- C3, amended: for a decoded 422 body none of whose records is named
`__proto__`, the callback stores the object `sorted body`, which is a mapping
(own keys pairwise distinct, prototype untouched) whose key set is exactly the
set of `field_name` values of the body and in which every key reads as the
unchanged `messages` of a record with that `field_name`; the body
`[{field_name: "name", messages: ["required"]}]` gives `{name: ["required"]}`
and the empty body gives `{}`. -/
theorem content_then_error_map (v : View) (body : List FieldError)
    (h : ∀ r ∈ body, r.field_name ≠ "__proto__") :
    (content_then (some body) v).1.error = ErrorState.fields (sorted body) ∧
    (sorted body).keys.Nodup ∧ (sorted body).proto = none ∧
    (∀ k, k ∈ (sorted body).keys ↔ ∃ r ∈ body, r.field_name = k) ∧
    (∀ k, k ∈ (sorted body).keys →
      ∃ r ∈ body, r.field_name = k ∧ (sorted body).get k = some r.messages) ∧
    (content_then (some [FieldError.mk "name" ["required"]]) v).1.error =
      ErrorState.fields ⟨[("name", ["required"])], none⟩ ∧
    (content_then (some []) v).1.error = ErrorState.fields ⟨[], none⟩ := by
  refine ⟨rfl, ?_, ?_, ?_, ?_, ?_, rfl⟩
  · rw [sorted_eq_sortedFrom]
    exact nodup_keys_sortedFrom body _ (by simp [ErrorObject.keys])
  · rw [sorted_eq_sortedFrom, proto_sortedFrom body _ h]
  · intro k
    rw [mem_keys_sorted]
    constructor
    · exact fun hk => hk.2
    · rintro ⟨r, hr, hk⟩
      exact ⟨fun e => h r hr (hk.trans e), r, hr, hk⟩
  · intro k hk
    rw [mem_keys_sorted] at hk
    obtain ⟨_, r, hr, hrk⟩ := hk
    cases hl : lastFor k body with
    | none => exact absurd hrk (lastFor_eq_none k body hl r hr)
    | some x =>
      obtain ⟨hx, hxk⟩ := lastFor_field_name k body x hl
      exact ⟨x, hx, hxk, by rw [get_sorted, hl]; rfl⟩
  · simp [content_then, sorted, ErrorObject.set, setOwn]

theorem content_then_error_map_witness :
    (∀ r ∈ [FieldError.mk "name" ["required"], FieldError.mk "description" ["too short", "no digits"]],
      r.field_name ≠ "__proto__") ∧
    (content_then (some [FieldError.mk "name" ["required"],
        FieldError.mk "description" ["too short", "no digits"]]) data).1.error =
      ErrorState.fields
        ⟨[("name", ["required"]), ("description", ["too short", "no digits"])], none⟩ :=
  ⟨by decide,
    (content_then_error_map data
      [FieldError.mk "name" ["required"], FieldError.mk "description" ["too short", "no digits"]]
      (by decide)).1.trans (by decide)⟩

/-- C4: handling a 422 response changes only `error`.  The response callback
itself returns the state unchanged and requests only the decoding of the body;
the body callback, whatever the decoding gave and whatever the state `w` then
is, keeps `bucket_list`, `input_name` and `input_description` and requests no
effect, hence no `fetch`. -/
theorem addToBucketList_then_422_frame (v w : View) (r : Option (List FieldError)) :
    (addToBucketList_then 422 v).1 = v ∧
    (addToBucketList_then 422 v).2 = [Effect.json Callback.content_then] ∧
    (addToBucketList_then 422 v).2.filter Effect.isFetch = [] ∧
    (content_then r w).1.bucket_list = w.bucket_list ∧
    (content_then r w).1.input_name = w.input_name ∧
    (content_then r w).1.input_description = w.input_description ∧
    (content_then r w).2 = [] := by
  refine ⟨by simp [addToBucketList_then], by simp [addToBucketList_then],
    by simp [addToBucketList_then, Effect.isFetch], ?_⟩
  cases r <;> simp [content_then]

/-- C5: with both fields non-empty, `addToBucketList` requests exactly one
effect: a `POST` to `/bucket_list/add` with header `Content-Type:
application/json` whose body serialises the object with exactly the members
`name` and `description`, holding `input_name` and `input_description` as they
are; no alert is raised and the state is returned unchanged. -/
theorem addToBucketList_posts (v : View) (h1 : v.input_name ≠ "")
    (h2 : v.input_description ≠ "") :
    (addToBucketList v).2 =
      [Effect.fetch
        (Request.mk "/bucket_list/add" "POST" [("Content-Type", "application/json")]
          (some (Body.jsonStringify
            [("name", v.input_name), ("description", v.input_description)])))
        Callback.addToBucketList_then] ∧
    ((addToBucketList v).2.filter Effect.isFetch).length = 1 ∧
    (addToBucketList v).2.filter Effect.isAlert = [] ∧
    (addToBucketList v).1 = v := by
  simp [addToBucketList, h1, h2, Effect.isFetch, Effect.isAlert]

theorem addToBucketList_posts_witness :
    (View.mk [] "Kyoto" "temples in autumn" ErrorState.cleared).input_name ≠ "" ∧
    (View.mk [] "Kyoto" "temples in autumn" ErrorState.cleared).input_description ≠ "" ∧
    (addToBucketList (View.mk [] "Kyoto" "temples in autumn" ErrorState.cleared)).2 =
      [Effect.fetch
        (Request.mk "/bucket_list/add" "POST" [("Content-Type", "application/json")]
          (some (Body.jsonStringify
            [("name", "Kyoto"), ("description", "temples in autumn")])))
        Callback.addToBucketList_then] :=
  ⟨by decide, by decide,
    (addToBucketList_posts (View.mk [] "Kyoto" "temples in autumn" ErrorState.cleared)
      (by decide) (by decide)).1⟩

/-- C6: when the list `L` was decoded, the data callback of `getBucketList`
replaces `bucket_list` by a list of the same length whose entry at each index
has the name and description of the entry of `L` at that index and, as
timestamp, the locale formatting of that entry's timestamp; `input_name`,
`input_description` and `error` are unchanged and no effect is requested. -/
theorem getBucketList_then_decoded (toLocaleString : String → String)
    (L : List BucketListEntry) (v : View) :
    (getBucketList_then toLocaleString (FetchJson.decoded L) v).1.bucket_list.length
      = L.length ∧
    (∀ i : Nat,
      (getBucketList_then toLocaleString (FetchJson.decoded L) v).1.bucket_list[i]? =
        (L[i]?).map
          (fun e => BucketListEntry.mk e.name e.description (toLocaleString e.timestamp))) ∧
    (getBucketList_then toLocaleString (FetchJson.decoded L) v).1.input_name
      = v.input_name ∧
    (getBucketList_then toLocaleString (FetchJson.decoded L) v).1.input_description
      = v.input_description ∧
    (getBucketList_then toLocaleString (FetchJson.decoded L) v).1.error = v.error ∧
    (getBucketList_then toLocaleString (FetchJson.decoded L) v).2 = [] := by
  simp [getBucketList_then, formatDate]

/-- C7: for a status other than 200 and 422 the response callback returns the
state unchanged and requests no effect at all (no alert, no `fetch`). -/
theorem addToBucketList_then_other (status : Nat) (h1 : status ≠ 200) (h2 : status ≠ 422)
    (v : View) : addToBucketList_then status v = (v, []) := by
  simp [addToBucketList_then, h1, h2]

theorem addToBucketList_then_other_witness :
    (500 : Nat) ≠ 200 ∧ (500 : Nat) ≠ 422 ∧
    addToBucketList_then 500 (View.mk [] "a" "b" ErrorState.cleared) =
      (View.mk [] "a" "b" ErrorState.cleared, []) :=
  ⟨by decide, by decide,
    addToBucketList_then_other 500 (by decide) (by decide)
      (View.mk [] "a" "b" ErrorState.cleared)⟩

end BucketList

namespace BucketList

/-- C9: when two or more records of a decoded 422 body carry the field name
`k`, the stored object reads under `k` as the `messages` of the last of them;
as soon as an earlier one has a message, this differs from the concatenation
of the messages of all of them. -/
theorem sorted_last_wins (v : View) (body : List FieldError) (k : String)
    (h : 2 ≤ (body.filter (fun r => decide (r.field_name = k))).length) :
    (content_then (some body) v).1.error = ErrorState.fields (sorted body) ∧
    ∃ r, (body.filter (fun r => decide (r.field_name = k))).getLast? = some r ∧
      (sorted body).get k = some r.messages ∧
      ((∃ e ∈ (body.filter (fun r => decide (r.field_name = k))).dropLast, e.messages ≠ []) →
        (sorted body).get k ≠
          some (((body.filter (fun r => decide (r.field_name = k))).map
            (fun r => r.messages)).flatten)) := by
  refine ⟨rfl, ?_⟩
  have hne : body.filter (fun r => decide (r.field_name = k)) ≠ [] := by
    intro e
    rw [e] at h
    simp at h
  refine ⟨(body.filter (fun r => decide (r.field_name = k))).getLast hne,
    List.getLast?_eq_getLast _ hne, ?_, ?_⟩
  · rw [get_sorted]
    unfold lastFor
    rw [List.getLast?_eq_getLast _ hne]
    rfl
  · rintro ⟨e, he, hem⟩ heq
    rw [get_sorted] at heq
    unfold lastFor at heq
    rw [List.getLast?_eq_getLast _ hne] at heq
    simp only [Option.map_some', Option.some.injEq] at heq
    have hsplit :
        ((body.filter (fun r => decide (r.field_name = k))).map (fun r => r.messages)).flatten =
          (((body.filter (fun r => decide (r.field_name = k))).dropLast.map
            (fun r => r.messages)).flatten) ++
          ((body.filter (fun r => decide (r.field_name = k))).getLast hne).messages := by
      have hs := congrArg (fun l => (l.map (fun r : FieldError => r.messages)).flatten)
        (List.dropLast_append_getLast hne)
      simpa using hs.symm
    rw [hsplit] at heq
    have hnil := List.self_eq_append_left.mp heq
    rw [List.flatten_eq_nil_iff] at hnil
    exact hem (hnil e.messages (List.mem_map_of_mem _ he))

theorem sorted_last_wins_witness :
    2 ≤ ([FieldError.mk "name" ["too short"], FieldError.mk "description" ["required"],
          FieldError.mk "name" ["no digits"]].filter
            (fun r => decide (r.field_name = "name"))).length ∧
    (sorted [FieldError.mk "name" ["too short"], FieldError.mk "description" ["required"],
          FieldError.mk "name" ["no digits"]]).get "name" = some ["no digits"] :=
  ⟨by decide, by
    obtain ⟨_, r, hr, hg, _⟩ := sorted_last_wins data
      [FieldError.mk "name" ["too short"], FieldError.mk "description" ["required"],
        FieldError.mk "name" ["no digits"]] "name" (by decide)
    have hr2 : r = FieldError.mk "name" ["no digits"] := by
      have : some (FieldError.mk "name" ["no digits"]) = some r := by
        rw [← hr]; decide
      exact (Option.some.inj this).symm
    rw [hg, hr2]⟩

/-- C10: the required-field check only compares with the empty string: in the
state with `input_name = " "` and `input_description = " "` no alert is raised
and the `POST` to `/bucket_list/add` is requested with both blanks in its body,
untrimmed. -/
theorem addToBucketList_whitespace :
    ∃ v : View, v.input_name = " " ∧ v.input_description = " " ∧
      (addToBucketList v).2.filter Effect.isAlert = [] ∧
      (addToBucketList v).2 =
        [Effect.fetch
          (Request.mk "/bucket_list/add" "POST" [("Content-Type", "application/json")]
            (some (Body.jsonStringify [("name", " "), ("description", " ")])))
          Callback.addToBucketList_then] :=
  ⟨View.mk [] " " " " ErrorState.cleared, rfl, rfl, by decide, by decide⟩

end BucketList

namespace Root

/-- C8: the `#array` application starts with `items` equal to the empty array;
mounting it requests exactly one effect, a `GET` to `/array`, and leaves the
state alone; the data callback stores any decoded value `d` in `items`, and
after a failed fetch or an undecodable body the state is what it was. -/
theorem getItems_contract (Num : Type) (v : ArrayView Num) (d : Json Num) :
    (data Num).items = Json.array [] ∧
    (mounted (data Num)).2 =
      [Effect.fetch (Request.mk "/array" "GET" [] none) Callback.getItems_then] ∧
    (mounted (data Num)).1.items = Json.array [] ∧
    (getItems_then (FetchJson.decoded d) v).1.items = d ∧
    (getItems_then FetchJson.networkError v).1.items = v.items ∧
    (getItems_then FetchJson.invalidJson v).1.items = v.items ∧
    (getItems_then FetchJson.networkError (data Num)).1.items = Json.array [] ∧
    (getItems_then FetchJson.invalidJson (data Num)).1.items = Json.array [] ∧
    (getItems_then (FetchJson.decoded d) v).2 = [] ∧
    (getItems_then FetchJson.networkError v).2 = [] ∧
    (getItems_then FetchJson.invalidJson v).2 = [] :=
  ⟨rfl, rfl, rfl, rfl, rfl, rfl, rfl, rfl, rfl, rfl, rfl⟩

end Root
